import Mathlib

/-
Shallow embedding of the core of `calcon` (file `src/calcon/app.py`).

Python `Decimal` magnitudes and exponents are modelled as exact rationals
(`ℚ`); all arithmetic the claims exercise is exact in `Decimal` as well.
Python `dict`s (which preserve insertion order, have unique keys, update a
key in place, and append fresh keys at the end) are modelled as association
lists together with dictionary operations `dlookup`, `dinsert`, `dremove`
that mirror those semantics.  A raised Python exception is modelled as an
error value; each raise site of `app.py` gets its own `Err` constructor
(the source raises `ValueError` at all of them, plus `KeyError` /
`AssertionError` for the internal failures).

Mutating methods of the `App` class are modelled as functions
`App → args → App × Option Err`: the returned `App` is the state of the
object after the call, also when an exception was raised part-way through
(Python mutates `self` in place, so partial updates survive a raise).
Read-only methods are modelled as `... → Except Err result`.
-/

namespace Calcon

/-- A key of a unit mapping: either a bare canonical unit name, or a
(prefix name, core unit name) pair — `str | tuple[str, str]` in the source. -/
inductive Component where
  | base (core : String)
  | pfx (p : String) (core : String)
deriving DecidableEq

/-- A unit: ordered mapping from components to exponents (`_Unit` in the
source, `dict[Union[str, tuple[str, str]], Decimal]`). -/
abbrev UnitMap := List (Component × ℚ)

/-- A physical quantity: magnitude together with a unit (class `Quantity`). -/
structure Quantity where
  magnitude : ℚ
  unit : UnitMap
deriving DecidableEq

/-- A unit definition (`_RootUnitDefinition`, `_DerivedUnitDefinition`,
`_UnitAliasDefinition`). -/
inductive UnitDefinition where
  | root (dimension : String)
  | derived (root_value : Quantity)
  | ualias (canonical : String)
deriving DecidableEq

/-- A prefix definition (`_CanonicalPrefixDefinition`, `_PrefixAliasDefinition`). -/
inductive PfxDefinition where
  | canonical (value : ℚ)
  | palias (canonical : String)
deriving DecidableEq

/-- One constructor per raise site of `app.py`. -/
inductive Err where
  | unitAlreadyDefined
  | dimensionTaken
  | unknownUnit
  | pfxAlreadyDefined
  | symbolAlreadySet
  | differentDimensions
  | exponentNotDimensionless
  | keyError
  | assertionError
deriving DecidableEq

/-- The state of an `App` object (its five dictionaries). -/
structure App where
  unit_definitions : List (String × UnitDefinition)
  dimensions_to_units : List (String × String)
  units_to_symbols : List (String × String)
  pfx_definitions : List (String × PfxDefinition)
  pfxes_to_symbols : List (String × String)
deriving DecidableEq

/-- `App.__init__`: all five dictionaries start empty. -/
def App.init : App := ⟨[], [], [], [], []⟩

section Dict

variable {α β : Type} [DecidableEq α]

/-- Python `d[k]` / `d.get(k)`: value of the first (only) entry with key `k`. -/
def dlookup : List (α × β) → α → Option β
  | [], _ => none
  | (k', v) :: t, k => if k' = k then some v else dlookup t k

/-- Python `k in d`. -/
def dcontains (l : List (α × β)) (k : α) : Bool :=
  (dlookup l k).isSome

/-- Python `d[k] = v`: update in place if `k` is present, else append. -/
def dinsert : List (α × β) → α → β → List (α × β)
  | [], k, v => [(k, v)]
  | (k', v') :: t, k, v =>
    if k' = k then (k, v) :: t else (k', v') :: dinsert t k v

/-- Python `d.pop(k, None)`: drop the entry with key `k`, if any. -/
def dremove : List (α × β) → α → List (α × β)
  | [], _ => []
  | (k', v') :: t, k => if k' = k then t else (k', v') :: dremove t k

end Dict

/-- Python `dict` equality (`==` / `!=`): order-insensitive comparison of the
key/value sets, used by `quantity_convert` to compare root-unit vectors. -/
def dictEq (a b : UnitMap) : Bool :=
  a.length == b.length && a.all (fun p => dlookup b p.1 == some p.2)

/-- `App.define_root_unit`. -/
def define_root_unit (app : App) (unit dimension : String) : App × Option Err :=
  if dcontains app.unit_definitions unit then (app, some Err.unitAlreadyDefined)
  else if dcontains app.dimensions_to_units dimension then (app, some Err.dimensionTaken)
  else
    ({ app with
        unit_definitions := dinsert app.unit_definitions unit (UnitDefinition.root dimension),
        dimensions_to_units := dinsert app.dimensions_to_units dimension unit },
      none)

/-- `App.define_unit_alias`.  Note: the source checks only that `a` is fresh;
it never looks `canonical` up. -/
def define_unit_alias (app : App) (a canonical : String) : App × Option Err :=
  if dcontains app.unit_definitions a then (app, some Err.unitAlreadyDefined)
  else
    ({ app with
        unit_definitions := dinsert app.unit_definitions a (UnitDefinition.ualias canonical) },
      none)

/-- `App.define_unit_symbol_alias`: first defines the alias (mutating the
state), only then checks whether `canonical` already has a symbol. -/
def define_unit_symbol_alias (app : App) (symbol canonical : String) : App × Option Err :=
  match define_unit_alias app symbol canonical with
  | (app1, some e) => (app1, some e)
  | (app1, none) =>
    if dcontains app1.units_to_symbols canonical then (app1, some Err.symbolAlreadySet)
    else
      ({ app1 with units_to_symbols := dinsert app1.units_to_symbols canonical symbol }, none)

/-- `App.define_canonical_prefix`.  The source takes a bare `Decimal` value
and performs no dimensionlessness check of any kind. -/
def define_canonical_pfx (app : App) (p : String) (value : ℚ) : App × Option Err :=
  if dcontains app.pfx_definitions p then (app, some Err.pfxAlreadyDefined)
  else
    ({ app with pfx_definitions := dinsert app.pfx_definitions p (PfxDefinition.canonical value) },
      none)

/-- `App.define_prefix_alias`. -/
def define_pfx_alias (app : App) (a canonical : String) : App × Option Err :=
  if dcontains app.pfx_definitions a then (app, some Err.pfxAlreadyDefined)
  else
    ({ app with pfx_definitions := dinsert app.pfx_definitions a (PfxDefinition.palias canonical) },
      none)

/-- `App.define_prefix_symbol_alias`: alias first, symbol check afterwards,
exactly like `define_unit_symbol_alias`. -/
def define_pfx_symbol_alias (app : App) (symbol canonical : String) : App × Option Err :=
  match define_pfx_alias app symbol canonical with
  | (app1, some e) => (app1, some e)
  | (app1, none) =>
    if dcontains app1.pfxes_to_symbols canonical then (app1, some Err.symbolAlreadySet)
    else
      ({ app1 with pfxes_to_symbols := dinsert app1.pfxes_to_symbols canonical symbol }, none)

/-- `App._unit_lookup`: exact dictionary lookup only; an alias resolves one
step to `{definition.canonical: 1}`, a root/derived name to `{name: 1}`, and
anything absent raises (`Unknown unit ...`). -/
def unit_lookup (app : App) (unit_name : String) : Except Err UnitMap :=
  match dlookup app.unit_definitions unit_name with
  | none => Except.error Err.unknownUnit
  | some (UnitDefinition.ualias canonical) => Except.ok [(Component.base canonical, 1)]
  | some (UnitDefinition.root _) => Except.ok [(Component.base unit_name, 1)]
  | some (UnitDefinition.derived _) => Except.ok [(Component.base unit_name, 1)]

/-- `App._unit_multiply_power_in_place`: for each entry of the multiplier,
add `power * exponent` to the multiplicand entry, dropping it when the
result is zero. -/
def unit_multiply_power_in_place : UnitMap → UnitMap → ℚ → UnitMap
  | macc, [], _ => macc
  | macc, (comp, mpower) :: rest, exponent =>
    let result_power := ((dlookup macc comp).getD 0) + mpower * exponent
    unit_multiply_power_in_place
      (if result_power = 0 then dremove macc comp else dinsert macc comp result_power)
      rest exponent

/-- `App._prefix_value`, translated faithfully: in the alias branch the
source looks up `prefix` again (line 262) instead of `definition.canonical`,
so the subsequent `assert isinstance(..., _CanonicalPrefixDefinition)` meets
the very same alias definition and fails. -/
def pfx_value (app : App) (p : String) : Except Err ℚ :=
  match dlookup app.pfx_definitions p with
  | none => Except.error Err.keyError
  | some (PfxDefinition.canonical v) => Except.ok v
  | some (PfxDefinition.palias _) =>
    match dlookup app.pfx_definitions p with
    | some (PfxDefinition.canonical v) => Except.ok v
    | _ => Except.error Err.assertionError

/-- Loop body of `App._unit_root_value`, running over the components with the
accumulated magnitude and root-unit vector.  For a root core the prefix value
is computed but not used (the source merges `{core: power}` and `continue`s);
for a derived core the magnitude is multiplied by
`prefix_value * root_value.magnitude` once — not raised to `power`. -/
def unit_root_value_aux (app : App) : UnitMap → ℚ → UnitMap → Except Err Quantity
  | [], mag, acc => Except.ok ⟨mag, acc⟩
  | (comp, power) :: rest, mag, acc =>
    let pvCore : Except Err (ℚ × String) :=
      match comp with
      | Component.base core => Except.ok (1, core)
      | Component.pfx p core =>
        match pfx_value app p with
        | Except.error e => Except.error e
        | Except.ok v => Except.ok (v, core)
    match pvCore with
    | Except.error e => Except.error e
    | Except.ok (pv, core) =>
      match dlookup app.unit_definitions core with
      | none => Except.error Err.keyError
      | some (UnitDefinition.root _) =>
        unit_root_value_aux app rest mag
          (unit_multiply_power_in_place acc [(Component.base core, power)] 1)
      | some (UnitDefinition.derived rv) =>
        unit_root_value_aux app rest (mag * pv * rv.magnitude)
          (unit_multiply_power_in_place acc rv.unit power)
      | some (UnitDefinition.ualias _) => Except.error Err.assertionError

/-- `App._unit_root_value`: magnitude starts at 1, vector starts empty. -/
def unit_root_value (app : App) (u : UnitMap) : Except Err Quantity :=
  unit_root_value_aux app u 1 []

/-- `App.define_derived_unit`: duplicate check, then eager root reduction of
the defining value, then the frozen root value is stored. -/
def define_derived_unit (app : App) (unit : String) (value : Quantity) : App × Option Err :=
  if dcontains app.unit_definitions unit then (app, some Err.unitAlreadyDefined)
  else
    match unit_root_value app value.unit with
    | Except.error e => (app, some e)
    | Except.ok rv =>
      ({ app with
          unit_definitions := dinsert app.unit_definitions unit
            (UnitDefinition.derived ⟨value.magnitude * rv.magnitude, rv.unit⟩) },
        none)

/-- `App.quantity_from_unit_name`: magnitude 1 on the looked-up unit. -/
def quantity_from_unit_name (app : App) (unit_name : String) : Except Err Quantity :=
  match unit_lookup app unit_name with
  | Except.error e => Except.error e
  | Except.ok u => Except.ok ⟨1, u⟩

/-- `App.quantity_convert`: reduce source and target, compare the root
vectors with dictionary equality, rescale the magnitude. -/
def quantity_convert (app : App) (q : Quantity) (target_unit : UnitMap) : Except Err Quantity :=
  match unit_root_value app q.unit with
  | Except.error e => Except.error e
  | Except.ok s =>
    match unit_root_value app target_unit with
    | Except.error e => Except.error e
    | Except.ok t =>
      if dictEq s.unit t.unit then
        Except.ok ⟨q.magnitude * s.magnitude / t.magnitude, target_unit⟩
      else Except.error Err.differentDimensions

/-- `App.quantity_exponentiate`: reject a dimensionful exponent, special-case
a zero root magnitude of the exponent, otherwise scale the exponents of
`x.unit` and raise the magnitude with `x.magnitude ** e`.

The scalar power `**` is `Decimal.__pow__`.  For a non-integral exponent it
is an inexact floating-decimal computation that CPython documents as only
"almost always correctly rounded", so it has no exact rational semantics;
within this exact-rational model of `Decimal` only the integral-exponent
case has a definite value (`m ^ k`).  The embedding therefore takes the
scalar power as an explicit parameter `dpow` standing for
`Decimal.__pow__`, and the theorems below hold for every interpretation of
`dpow`, with the integral case pinned to the exact power. -/
def quantity_exponentiate (dpow : ℚ → ℚ → ℚ) (app : App) (x y : Quantity) :
    Except Err Quantity :=
  match unit_root_value app y.unit with
  | Except.error e => Except.error e
  | Except.ok yrv =>
    if yrv.unit ≠ [] then Except.error Err.exponentNotDimensionless
    else
      let e := y.magnitude * yrv.magnitude
      if e = 0 then Except.ok ⟨1, []⟩
      else Except.ok ⟨dpow x.magnitude e, unit_multiply_power_in_place [] x.unit e⟩

/-- One total interpretation of the scalar-power parameter, agreeing with
the exact integral-exponent case of `Decimal.__pow__` (on which this model
of `Decimal` is meaningful).  It is used only to instantiate witnesses; the
claim theorem quantifies over every interpretation. -/
def intPow (m e : ℚ) : ℚ := m ^ e.num

/-
Concrete registries, all built through the definition operations themselves.
-/

/-- Registry with root unit `meter` (dimension `Length`) and canonical
prefix `kilo = 1000`. -/
def exAppKilo : App :=
  (define_canonical_pfx (define_root_unit App.init "meter" "Length").1 "kilo" 1000).1

/-- Registry with root unit `second` and derived unit `hour`, whose frozen
root value is `(3600, second)`. -/
def exAppHour : App :=
  (define_derived_unit (define_root_unit App.init "second" "Time").1
    "hour" ⟨3600, [(Component.base "second", 1)]⟩).1

/-- Registry with root unit `a` and the alias chain `c -> b -> a`. -/
def exAppChain : App :=
  (define_unit_alias (define_unit_alias (define_root_unit App.init "a" "Length").1
    "b" "a").1 "c" "b").1

/-- Registry with root unit `a` whose symbol `A1` is already registered. -/
def exAppSym : App :=
  (define_unit_symbol_alias (define_root_unit App.init "a" "Length").1 "A1" "a").1

/-- Registry with canonical prefix `kilo = 1000`, prefix alias `k -> kilo`,
and root unit `meter`. -/
def exAppPfxAlias : App :=
  (define_root_unit (define_pfx_alias
    (define_canonical_pfx App.init "kilo" 1000).1 "k" "kilo").1 "meter" "Length").1

/-- Registry with root unit `meter` and derived dimensionless unit
`dozen = 12`. -/
def exAppDozen : App :=
  (define_derived_unit (define_root_unit App.init "meter" "Length").1
    "dozen" ⟨12, []⟩).1

/-
General lemmas about the dictionary model, used by the theorems below.
-/

section DictLemmas

variable {α β : Type} [DecidableEq α]

theorem dlookup_append_left_none {l₁ l₂ : List (α × β)} {k : α}
    (h : dlookup l₁ k = none) : dlookup (l₁ ++ l₂) k = dlookup l₂ k := by
  induction l₁ with
  | nil => rfl
  | cons hd t ih =>
    obtain ⟨k', v'⟩ := hd
    rw [dlookup] at h
    by_cases hk : k' = k
    · simp [hk] at h
    · rw [List.cons_append, dlookup, if_neg hk]
      exact ih (by rwa [if_neg hk] at h)

theorem dinsert_of_lookup_none {l : List (α × β)} {k : α} {v : β}
    (h : dlookup l k = none) : dinsert l k v = l ++ [(k, v)] := by
  induction l with
  | nil => rfl
  | cons hd t ih =>
    obtain ⟨k', v'⟩ := hd
    rw [dlookup] at h
    by_cases hk : k' = k
    · simp [hk] at h
    · rw [dinsert, if_neg hk, List.cons_append,
        ih (by rwa [if_neg hk] at h)]

end DictLemmas

/-- Multiplying a unit whose keys are all fresh for the multiplicand, whose
exponents are all nonzero, and whose keys are distinct, by a nonzero
exponent, appends the scaled entries in order. -/
theorem unit_multiply_power_fresh (e : ℚ) (he : e ≠ 0) (m : UnitMap) :
    ∀ acc : UnitMap, (∀ q ∈ m, q.2 ≠ 0) → (List.map Prod.fst m).Nodup →
    (∀ q ∈ m, dlookup acc q.1 = none) →
    unit_multiply_power_in_place acc m e =
      acc ++ List.map (fun q => (q.1, q.2 * e)) m := by
  induction m with
  | nil => intro acc _ _ _; simp [unit_multiply_power_in_place]
  | cons hd t ih =>
    intro acc hz hnd hfresh
    obtain ⟨c, p⟩ := hd
    have hacc : dlookup acc c = none := hfresh (c, p) (List.mem_cons_self _ _)
    have hp : p ≠ 0 := hz (c, p) (List.mem_cons_self _ _)
    have hpe : (0 : ℚ) + p * e ≠ 0 := by
      rw [zero_add]; exact mul_ne_zero hp he
    have hnd' : c ∉ List.map Prod.fst t ∧ (List.map Prod.fst t).Nodup := by
      rw [List.map_cons] at hnd
      exact List.nodup_cons.mp hnd
    have hcnot : c ∉ List.map Prod.fst t := hnd'.1
    rw [unit_multiply_power_in_place]
    simp only [hacc, Option.getD_none, if_neg hpe]
    rw [dinsert_of_lookup_none hacc]
    rw [ih (acc ++ [(c, (0 : ℚ) + p * e)])
      (fun q hq => hz q (List.mem_cons_of_mem _ hq))
      hnd'.2
      (fun q hq => by
        rw [dlookup_append_left_none (hfresh q (List.mem_cons_of_mem _ hq))]
        have hne : c ≠ q.1 := by
          intro hcq
          exact hcnot (hcq ▸ List.mem_map_of_mem Prod.fst hq)
        simp [dlookup, hne])]
    simp [zero_add]

/-
Claim theorems.
-/

/-- C1: the claim states that a name which is not bound in the unit
namespace but splits into a bound prefix plus a bound core resolves to the
prefixed component (shortest prefix wins).  The source `_unit_lookup` has no
prefixed-match step at all: with root unit `meter` and canonical prefix
`kilo` bound, the exact name `meter` resolves, but `kilometer` raises the
unknown-unit error instead of resolving to `(kilo, meter)`. -/
theorem claim_c1_code_eval :
    quantity_from_unit_name exAppKilo "meter" =
      Except.ok ⟨1, [(Component.base "meter", 1)]⟩
    ∧ quantity_from_unit_name exAppKilo "kilometer" = Except.error Err.unknownUnit :=
  ⟨rfl, rfl⟩

/-- C2: the claim states that a name ending in a single `s` whose remainder
resolves is itself resolvable.  The source has no plural fallback: with root
unit `meter` bound, `meters` raises the unknown-unit error (and `meterss`
fails as well, as the claim also requires). -/
theorem claim_c2_code_eval :
    quantity_from_unit_name exAppKilo "meters" = Except.error Err.unknownUnit
    ∧ quantity_from_unit_name exAppKilo "meterss" = Except.error Err.unknownUnit :=
  ⟨rfl, rfl⟩

/-- C3: the claim states that root reduction multiplies the magnitude by
`(prefixValue * rootValue.magnitude) ^ exponent`.  The source multiplies by
`prefix_value * root_value.magnitude` once, ignoring the exponent: with
`hour` derived as `(3600, second)`, reducing `hour ^ 2` yields magnitude
`3600`, not `3600 ^ 2`. -/
theorem claim_c3_code_eval :
    unit_root_value exAppHour [(Component.base "hour", 2)] =
      Except.ok ⟨3600, [(Component.base "second", 2)]⟩
    ∧ (3600 : ℚ) ≠ 3600 ^ (2 : ℕ) := by
  constructor
  · norm_num +decide [unit_root_value, unit_root_value_aux, exAppHour, define_root_unit,
      define_derived_unit, App.init, dcontains, dlookup, dinsert,
      unit_multiply_power_in_place, pfx_value, dremove]
  · norm_num

/-- C4: the claim states that converting `1 (kilo, meter)` to `meter` yields
the prefix value `1000`.  In the source's `_unit_root_value` the root-unit
branch merges the core and `continue`s without ever multiplying in the
prefix value, so the conversion succeeds with magnitude `1`. -/
theorem claim_c4_code_eval :
    quantity_convert exAppKilo ⟨1, [(Component.pfx "kilo" "meter", 1)]⟩
        [(Component.base "meter", 1)] =
      Except.ok ⟨1, [(Component.base "meter", 1)]⟩
    ∧ (1 : ℚ) ≠ 1000 := by
  constructor
  · norm_num +decide [quantity_convert, unit_root_value, unit_root_value_aux, exAppKilo,
      define_root_unit, define_canonical_pfx, App.init, dcontains, dlookup, dinsert,
      unit_multiply_power_in_place, pfx_value, dremove, dictEq]
  · norm_num

/-- C5: the claim states that along an alias chain `c -> b -> a` (with `a`
canonical) all three names resolve to `(1, a)`.  The source resolves an
alias exactly one step, without chasing: `c` resolves to `(1, b)` while `b`
and `a` resolve to `(1, a)`, so resolution is not transitive. -/
theorem claim_c5_code_eval :
    quantity_from_unit_name exAppChain "c" = Except.ok ⟨1, [(Component.base "b", 1)]⟩
    ∧ quantity_from_unit_name exAppChain "b" = Except.ok ⟨1, [(Component.base "a", 1)]⟩
    ∧ quantity_from_unit_name exAppChain "a" = Except.ok ⟨1, [(Component.base "a", 1)]⟩ :=
  ⟨rfl, rfl, rfl⟩

/-- C6: the claim states that defining an alias fails when the canonical
name is unbound.  The source `define_unit_alias` only checks that the alias
itself is fresh: on the empty registry, aliasing `c` to the unbound name `b`
succeeds and stores the dangling alias.  (The duplicate half of the claim
does hold: redefining the bound name `b` of the chain registry fails.) -/
theorem claim_c6_code_eval :
    define_unit_alias App.init "c" "b" =
      (⟨[("c", UnitDefinition.ualias "b")], [], [], [], []⟩, none)
    ∧ (define_unit_alias exAppChain "b" "a").2 = some Err.unitAlreadyDefined :=
  ⟨rfl, rfl⟩

/-- C7: the claim states that defining a canonical prefix fails whenever the
root reduction of the defining value has a nonempty unit vector.  The source
`define_canonical_prefix` takes a bare scalar and performs no
dimensionlessness check of any kind: any fresh prefix name is accepted
unconditionally and the scalar is stored. -/
theorem claim_c7_code_eval :
    define_canonical_pfx exAppKilo "meter_times_" 1000 =
      (⟨[("meter", UnitDefinition.root "Length")], [("Length", "meter")], [],
        [("kilo", PfxDefinition.canonical 1000),
          ("meter_times_", PfxDefinition.canonical 1000)], []⟩, none) :=
  rfl

/-- C8 counterexample: the claim states that an operation which raises
leaves the registry exactly as before the call.  On a registry where unit
`a` already has symbol `A1`, `define_unit_symbol_alias("A2", "a")` raises
the symbol-already-set error, yet the state after the call differs from the
state before: the symbol `A2` was already bound as an alias. -/
theorem claim_c8_counterexample :
    ((define_unit_symbol_alias exAppSym "A2" "a").2.isSome = true)
    ∧ (define_unit_symbol_alias exAppSym "A2" "a").1 ≠ exAppSym := by
  decide

/-- C8 (amended): every definition operation except the two symbol-alias
operations leaves the registry unchanged when it raises; the symbol-alias
operations first bind the symbol as an alias and only then check the symbol
map, so on a raise the final state is the state left by the inner alias
definition (unchanged when the alias step itself raised, but with the
symbol bound as an alias when the symbol-already-set error was raised). -/
theorem claim_c8_amended (app : App) (n d c s : String) (v : Quantity) (pv : ℚ) :
    ((define_root_unit app n d).2.isSome → (define_root_unit app n d).1 = app)
    ∧ ((define_derived_unit app n v).2.isSome → (define_derived_unit app n v).1 = app)
    ∧ ((define_unit_alias app n c).2.isSome → (define_unit_alias app n c).1 = app)
    ∧ ((define_canonical_pfx app n pv).2.isSome → (define_canonical_pfx app n pv).1 = app)
    ∧ ((define_pfx_alias app n c).2.isSome → (define_pfx_alias app n c).1 = app)
    ∧ ((define_unit_symbol_alias app s c).2.isSome →
        (define_unit_symbol_alias app s c).1 = (define_unit_alias app s c).1)
    ∧ ((define_pfx_symbol_alias app s c).2.isSome →
        (define_pfx_symbol_alias app s c).1 = (define_pfx_alias app s c).1) := by
  refine ⟨?_, ?_, ?_, ?_, ?_, ?_, ?_⟩
  · simp only [define_root_unit]
    split_ifs <;> simp
  · simp only [define_derived_unit]
    split_ifs with h
    · simp
    · cases hv : unit_root_value app v.unit <;> simp
  · simp only [define_unit_alias]
    split_ifs <;> simp
  · simp only [define_canonical_pfx]
    split_ifs <;> simp
  · simp only [define_pfx_alias]
    split_ifs <;> simp
  · cases hv : define_unit_alias app s c with
    | mk a1 e =>
      cases e with
      | none =>
        simp only [define_unit_symbol_alias, hv]
        split_ifs <;> simp
      | some err => simp [define_unit_symbol_alias, hv]
  · cases hv : define_pfx_alias app s c with
    | mk a1 e =>
      cases e with
      | none =>
        simp only [define_pfx_symbol_alias, hv]
        split_ifs <;> simp
      | some err => simp [define_pfx_symbol_alias, hv]

/-- C8 witness: instantiating the amended claim on the symbol registry where
the symbol-already-set error fires. -/
theorem claim_c8_witness :
    (define_unit_symbol_alias exAppSym "A2" "a").1 =
      (define_unit_alias exAppSym "A2" "a").1 :=
  (claim_c8_amended exAppSym "n" "d" "a" "A2" ⟨1, []⟩ 1).2.2.2.2.2.1 (by decide)

/-- C9: `quantity_exponentiate` fails with the dimensionless-exponent error
exactly when the root reduction of the exponent's unit has a nonempty
vector; otherwise, with `e` the product of the exponent's magnitude and root
magnitude, a zero `e` yields the unitless quantity `1` regardless of the
base, and a nonzero `e` scales every exponent of the base's unit by `e` and
sets the magnitude to `x.magnitude ** e`.  The statement holds for every
interpretation `dpow` of the scalar power `Decimal.__pow__` (whose
non-integral case is inexact and not exactly specified); the final conjunct
pins the exact integral-exponent case: whenever `e` is an integer, a `dpow`
that agrees with exact integer powers makes the magnitude
`x.magnitude ^ e.num`.  The base unit is assumed well-formed (distinct
keys, no zero exponents), as Python dicts and the registry invariant
guarantee. -/
theorem claim_c9_exponentiate (dpow : ℚ → ℚ → ℚ) (app : App) (x y ry : Quantity)
    (hr : unit_root_value app y.unit = Except.ok ry)
    (hnz : ∀ q ∈ x.unit, q.2 ≠ 0)
    (hnd : (List.map Prod.fst x.unit).Nodup) :
    (quantity_exponentiate dpow app x y = Except.error Err.exponentNotDimensionless ↔
      ry.unit ≠ [])
    ∧ (ry.unit = [] → y.magnitude * ry.magnitude = 0 →
        quantity_exponentiate dpow app x y = Except.ok ⟨1, []⟩)
    ∧ (ry.unit = [] → y.magnitude * ry.magnitude ≠ 0 →
        quantity_exponentiate dpow app x y =
          Except.ok ⟨dpow x.magnitude (y.magnitude * ry.magnitude),
            List.map (fun q => (q.1, q.2 * (y.magnitude * ry.magnitude))) x.unit⟩)
    ∧ ((y.magnitude * ry.magnitude).den = 1 → x.magnitude ≠ 0 →
        (∀ m : ℚ, ∀ k : ℤ, m ≠ 0 → dpow m (k : ℚ) = m ^ k) →
        dpow x.magnitude (y.magnitude * ry.magnitude) =
          x.magnitude ^ (y.magnitude * ry.magnitude).num) := by
  refine ⟨?_, ?_, ?_, ?_⟩
  · simp only [quantity_exponentiate, hr]
    by_cases hE : ry.unit = []
    · by_cases h0 : y.magnitude * ry.magnitude = 0 <;> simp [hE, h0]
    · simp [hE]
  · intro hE h0
    simp [quantity_exponentiate, hr, hE, h0]
  · intro hE h0
    simp only [quantity_exponentiate, hr]
    rw [if_neg (by simp [hE]), if_neg h0,
      unit_multiply_power_fresh _ h0 x.unit [] hnz hnd (fun q _ => rfl)]
    simp
  · intro hden hx0 hdpow
    have hcast : (((y.magnitude * ry.magnitude).num : ℤ) : ℚ) =
        y.magnitude * ry.magnitude := by
      have := Rat.num_div_den (y.magnitude * ry.magnitude)
      rw [hden] at this
      simpa using this
    have h := hdpow x.magnitude (y.magnitude * ry.magnitude).num hx0
    rw [hcast] at h
    exact h

/-- C9 witness: under the integral-exponent interpretation of the scalar
power, `2 meter` raised to `1 dozen` (a derived dimensionless unit of root
value 12) gives `4096 meter ^ 12`, and the integral-case conjunct evaluates
the scalar power to the exact integer power `2 ^ 12`. -/
theorem claim_c9_witness :
    (quantity_exponentiate intPow exAppDozen ⟨2, [(Component.base "meter", 1)]⟩
        ⟨1, [(Component.base "dozen", 1)]⟩ =
      Except.ok ⟨4096, [(Component.base "meter", 12)]⟩)
    ∧ intPow 2 ((1 : ℚ) * 12) = 2 ^ (12 : ℤ) := by
  have hc := claim_c9_exponentiate intPow exAppDozen ⟨2, [(Component.base "meter", 1)]⟩
    ⟨1, [(Component.base "dozen", 1)]⟩ ⟨12, []⟩
    (by norm_num +decide [unit_root_value, unit_root_value_aux, exAppDozen, define_root_unit,
      define_derived_unit, App.init, dcontains, dlookup, dinsert,
      unit_multiply_power_in_place, pfx_value, dremove])
    (by norm_num) (by simp)
  constructor
  · have h := hc.2.2.1 rfl (by norm_num)
    rw [h]
    norm_num [intPow]
  · have h := hc.2.2.2 (by norm_num) (by norm_num)
      (fun m k _ => by simp [intPow])
    rw [h]
    norm_num

/-- C10: the claim states that looking up a prefix alias returns the
canonical prefix's value without raising.  The alias branch of the source
`_prefix_value` looks up `prefix` itself again instead of
`definition.canonical`, so its `isinstance` assertion meets the alias
definition and fails: with `kilo = 1000` canonical and alias `k -> kilo`,
looking up `kilo` succeeds but looking up `k` raises the assertion error,
and so does root-reducing a unit that contains a `k`-prefixed component. -/
theorem claim_c10_code_eval :
    pfx_value exAppPfxAlias "kilo" = Except.ok 1000
    ∧ pfx_value exAppPfxAlias "k" = Except.error Err.assertionError
    ∧ unit_root_value exAppPfxAlias [(Component.pfx "k" "meter", 1)] =
        Except.error Err.assertionError :=
  ⟨rfl, rfl, rfl⟩

end Calcon



